import Mathlib

/-!
Shallow embedding of the Twitter repost bot.

The repository holds two near-duplicate scripts:
  src/post_repost.py          (quick-abort rate-limit policy), and
  src/twitter/post_repost.py  (backoff rate-limit policy).
Apart from safe_api_call and two configuration defaults the two scripts are
textually identical, so one pipeline model (namespace RepostBot) covers both,
with the backoff wrapper modelled separately in RepostBot.Backoff.

Remote-call results, the random choice and the download outcome are inputs of
the model (the script observes them only through library calls); everything the
script computes from those observations is translated directly from the source.
-/

namespace RepostBot

/-- One media object from the API response includes.  `mtype` models the
attribute probe getattr(mm, "type", None) and `url` models
getattr(mm, "url", None) from the source. -/
structure MediaItem where
  media_key : String
  mtype : Option String
  url : Option String
deriving DecidableEq, Repr

/-- Python truthiness of an optional string: None and the empty string are
falsy, every other string is truthy. -/
def truthyStr : Option String → Bool
  | none => false
  | some s => s != ""

/-- One tweet from resp.data: its numeric id and the media_keys list of its
attachments (the empty list when attachments are absent or malformed, which is
what the try/except around t.attachments.get produces). -/
structure Tweet where
  id : Nat
  media_keys : List String
deriving DecidableEq, Repr

/-- The relevant part of a get_users_tweets response: resp.data and
resp.includes["media"].  A falsy resp or resp.data is modelled by data = [],
which makes the source return [] exactly as the early-return does. -/
structure TweetsResponse where
  data : List Tweet
  includes_media : List MediaItem
deriving DecidableEq, Repr

/-- media_map.get(k) where media_map is built by iterating the includes and
assigning media_map[m.media_key] = m: the last entry with the key wins. -/
def media_map_get (ms : List MediaItem) (k : String) : Option MediaItem :=
  (ms.filter (fun m => m.media_key == k)).getLast?

/-- The inner loop of get_recent_media_tweets that builds `valid` for one
tweet: keep media that resolve in the map, have type "photo" and a truthy
url, in key order. -/
def valid_media (ms : List MediaItem) (keys : List String) : List MediaItem :=
  keys.filterMap (fun k =>
    match media_map_get ms k with
    | none => none
    | some mm =>
      if mm.mtype != some "photo" then none
      else if !(truthyStr mm.url) then none
      else some mm)

/-- A candidate as produced by get_recent_media_tweets: the tweet paired with
its non-empty list of valid photo media. -/
abbrev Candidate := Tweet × List MediaItem

/-- The `out` loop of get_recent_media_tweets: keep (t, valid) for tweets
whose valid media list is non-empty. -/
def response_media_tweets (resp : TweetsResponse) : List Candidate :=
  resp.data.filterMap (fun t =>
    let valid := valid_media resp.includes_media t.media_keys
    if valid.isEmpty then none else some (t, valid))

/-- Outcome of one underlying remote call, as classified by the quick-abort
safe_api_call of src/post_repost.py: success, an exception the wrapper
recognises as rate-limited (status 429 / TooManyRequests, carrying the
response headers and body it prints), or any other exception. -/
inductive CallOutcome (α : Type) where
  | ok (a : α)
  | rateLimited (headers : List (String × String)) (body : String)
  | err
deriving DecidableEq, Repr

/-- How a modelled computation ends: with a value, with sys.exit(0)
(SystemExit, which `except Exception` handlers do not catch, so it unwinds the
whole run), or with an ordinary Exception propagating to the caller. -/
inductive PyResult (α : Type) where
  | ok (a : α)
  | exited
  | raised
deriving DecidableEq, Repr

/-- The header names the quick-abort wrapper probes for diagnostics. -/
def rate_header_names : List String :=
  ["x-rate-limit-limit", "x-rate-limit-remaining", "x-rate-limit-reset",
   "x_rate_limit_reset", "x-rate-limit-remaining", "x-rate-limit-limit"]

/-- resp.headers.get(h): first binding of the name in the header list. -/
def header_get (hs : List (String × String)) (k : String) : Option String :=
  (hs.find? (fun p => p.1 == k)).map (fun p => p.2)

/-- safe_api_call of src/post_repost.py (quick-abort variant).  On success it
returns the value.  On a rate-limited exception it prints the rate headers
that are present and the body, then calls sys.exit(0): modelled as
PyResult.exited together with the log lines.  On any other exception it
re-raises.  The source calls func exactly once: there is no retry loop. -/
def safe_api_call {α : Type} (o : CallOutcome α) : PyResult α × List String :=
  match o with
  | .ok a => (.ok a, [])
  | .rateLimited headers body =>
    let headerLogs := rate_header_names.filterMap (fun h =>
      (header_get headers h).map (fun v => "[RATE HEADER] " ++ h ++ ": " ++ v))
    (.exited,
      headerLogs ++ ["[HTTP BODY] " ++ body,
        "[RATE LIMIT] Exiting run to avoid further requests."])
  | .err => (.raised, [])

/-- The two remote calls made by one invocation of get_recent_media_tweets:
get_user (ok none models a falsy user or user.data) and get_users_tweets. -/
structure FetchEnv where
  get_user : CallOutcome (Option Nat)
  get_users_tweets : CallOutcome TweetsResponse
deriving DecidableEq, Repr

/-- get_recent_media_tweets of src/post_repost.py.  Each remote call goes
through safe_api_call inside a `try/except Exception: return []`; a
SystemExit from the wrapper is not an Exception and unwinds instead. -/
def get_recent_media_tweets (env : FetchEnv) : PyResult (List Candidate) :=
  match (safe_api_call env.get_user).1 with
  | .exited => .exited
  | .raised => .ok []
  | .ok none => .ok []
  | .ok (some _uid) =>
    match (safe_api_call env.get_users_tweets).1 with
    | .exited => .exited
    | .raised => .ok []
    | .ok resp => .ok (response_media_tweets resp)

/-- slot_length = (24 * 60) / 7.0.  For the integer minute values the script
feeds it, the double computation agrees with the exact rational (slot
boundaries sit at least 1/7 of a minute away from the sample points, far
beyond double rounding error), so the model uses the rational. -/
def slot_length : ℚ := (24 * 60) / 7

/-- int(x // slot_length) on an arbitrary instant x (in minutes of the UTC
day), the mathematical core of current_slot_index_7. -/
def slot_of (x : ℚ) : ℤ := Int.floor (x / slot_length)

/-- current_slot_index_7: minutes_since_midnight // slot_length, truncated to
an integer, for the current UTC minute of day. -/
def current_slot_index_7 (minutes_since_midnight : ℕ) : ℕ :=
  (slot_of (minutes_since_midnight : ℚ)).toNat

/-- SOURCE_USERNAMES[current_slot_index_7() % len(SOURCE_USERNAMES)] from
pick_and_repost_from_slot. -/
def select_source (pool : List String) (minute : ℕ) : String :=
  pool.getD (current_slot_index_7 minute % pool.length) ""

/-- since_ids, a JSON object mapping source username to last-seen id string,
modelled as an association list in insertion order. -/
abbrev SinceMap := List (String × String)

/-- d.get(k) on the since_ids dict. -/
def dict_get (d : SinceMap) (k : String) : Option String :=
  (d.find? (fun p => p.1 == k)).map (fun p => p.2)

/-- d[k] = v on the since_ids dict: update in place when the key exists,
append otherwise (dict insertion-order semantics). -/
def dict_set (d : SinceMap) (k v : String) : SinceMap :=
  if (d.find? (fun p => p.1 == k)).isSome then
    d.map (fun p => if p.1 == k then (k, v) else p)
  else
    d ++ [(k, v)]

/-- max(int(t.id) for (t, _) in tweets); the script only evaluates it on
non-empty batches, where the fold below coincides with Python max. -/
def batch_max (tweets : List Candidate) : ℕ :=
  (tweets.map (fun p => p.1.id)).foldl max 0

/-- Everything a single run observes from the outside world beyond the two
fetches: the random.choice draw (an index reduced mod the candidate count),
whether download_url_to_file succeeds, and the outcomes of the upload chain
(as one safe_api_call of upload_media_with_fallback), of
client_v2.create_tweet and of api_v1.update_status. -/
structure RunEnv where
  fetch_incr : FetchEnv
  fetch_all : FetchEnv
  choice : Nat
  download_ok : Bool
  upload : CallOutcome Nat
  create_tweet : CallOutcome Unit
  update_status : CallOutcome Unit
deriving DecidableEq, Repr

/-- The control-flow exit taken by pick_and_repost_from_slot. -/
inductive StopReason where
  | emptyPool
  | fetchRateLimitExit
  | refetchRateLimitExit
  | noNewTweets
  | noNewTweetsCursorAdvanced
  | allInHistory
  | missingMediaUrl
  | downloadFailed
  | uploadRateLimitExit
  | uploadFailed
  | publishRateLimitExit
  | publishBothFailed
  | published
  | crashed
deriving DecidableEq, Repr

/-- Result of one run: the exit taken, the final in-memory HistorySet and
since_ids, the successive arguments passed to save_history and
save_since_ids, and the ids published this run. -/
structure RunResult where
  reason : StopReason
  history : Finset String
  since_ids : SinceMap
  history_writes : List (Finset String)
  since_writes : List SinceMap
  published : List String
deriving DecidableEq

/-- A run result that leaves the loaded state untouched and writes nothing. -/
def stopRun (r : StopReason) (history : Finset String) (since : SinceMap) :
    RunResult :=
  ⟨r, history, since, [], [], []⟩

/-- The commit block that runs only after a publish success: history.add(tid),
save_history, since_ids[source] = str(max batch id), save_since_ids. -/
def commit_run (history0 : Finset String) (since0 : SinceMap)
    (source_user tid : String) (tweets : List Candidate) : RunResult :=
  let history1 := insert tid history0
  let since1 := dict_set since0 source_user (toString (batch_max tweets))
  ⟨.published, history1, since1, [history1], [since1], [tid]⟩

/-- The publish step: client_v2.create_tweet through safe_api_call, falling
back to api_v1.update_status on an ordinary exception; the commit block runs
exactly when one of the two succeeds. -/
def publish_stage (history0 : Finset String) (since0 : SinceMap)
    (source_user tid : String) (tweets : List Candidate) (env : RunEnv) :
    RunResult :=
  match (safe_api_call env.create_tweet).1 with
  | .ok _ => commit_run history0 since0 source_user tid tweets
  | .exited => stopRun .publishRateLimitExit history0 since0
  | .raised =>
    match (safe_api_call env.update_status).1 with
    | .ok _ => commit_run history0 since0 source_user tid tweets
    | .exited => stopRun .publishRateLimitExit history0 since0
    | .raised => stopRun .publishBothFailed history0 since0

/-- The upload step: safe_api_call(upload_media_with_fallback, ...) inside a
try/except that returns on an ordinary exception. -/
def upload_stage (history0 : Finset String) (since0 : SinceMap)
    (source_user tid : String) (tweets : List Candidate) (env : RunEnv) :
    RunResult :=
  match (safe_api_call env.upload).1 with
  | .exited => stopRun .uploadRateLimitExit history0 since0
  | .raised => stopRun .uploadFailed history0 since0
  | .ok _media_id => publish_stage history0 since0 source_user tid tweets env

/-- From the chosen candidate onward: media_list[0], the missing-url check,
the download, then upload and publish. -/
def chosen_stage (history0 : Finset String) (since0 : SinceMap)
    (source_user : String) (chosen : Candidate) (tweets : List Candidate)
    (env : RunEnv) : RunResult :=
  let tid := toString chosen.1.id
  match chosen.2 with
  | [] => stopRun .crashed history0 since0
  | media_obj :: _ =>
    if !(truthyStr media_obj.url) then stopRun .missingMediaUrl history0 since0
    else if !env.download_ok then stopRun .downloadFailed history0 since0
    else upload_stage history0 since0 source_user tid tweets env

/-- The filter-against-history step and the random selection: candidates are
the fetched tweets whose str(id) is not in history; when none remain the
cursor is advanced to the batch maximum and the run stops. -/
def candidates_stage (history0 : Finset String) (since0 : SinceMap)
    (source_user : String) (tweets : List Candidate) (env : RunEnv) :
    RunResult :=
  let candidates := tweets.filter (fun p => !decide (toString p.1.id ∈ history0))
  if candidates.isEmpty then
    let since1 := dict_set since0 source_user (toString (batch_max tweets))
    ⟨.allInHistory, history0, since1, [], [since1], []⟩
  else
    chosen_stage history0 since0 source_user
      (candidates.getD (env.choice % candidates.length) (⟨0, []⟩, []))
      tweets env

/-- The cursor-advance-only branch taken when the incremental fetch is empty:
re-fetch unbounded; on a non-empty result store str(max id) and save. -/
def refetch_stage (history0 : Finset String) (since0 : SinceMap)
    (source_user : String) (env : RunEnv) : RunResult :=
  match get_recent_media_tweets env.fetch_all with
  | .exited => stopRun .refetchRateLimitExit history0 since0
  | .raised => stopRun .noNewTweets history0 since0
  | .ok resp_all =>
    if resp_all.isEmpty then stopRun .noNewTweets history0 since0
    else
      let since1 := dict_set since0 source_user (toString (batch_max resp_all))
      ⟨.noNewTweetsCursorAdvanced, history0, since1, [], [since1], []⟩

/-- pick_and_repost_from_slot of src/post_repost.py, as a function of the
configured pool, the current UTC minute of day, the state loaded at run start
(load_history / load_since_ids) and the observed environment.  The staged
helper functions above each mirror a contiguous block of the source body. -/
def pick_and_repost_from_slot (pool : List String) (minute : ℕ)
    (history0 : Finset String) (since0 : SinceMap) (env : RunEnv) : RunResult :=
  if pool.isEmpty then stopRun .emptyPool history0 since0
  else
    let source_user := select_source pool minute
    match get_recent_media_tweets env.fetch_incr with
    | .exited => stopRun .fetchRateLimitExit history0 since0
    | .raised => stopRun .crashed history0 since0
    | .ok tweets =>
      if tweets.isEmpty then refetch_stage history0 since0 source_user env
      else candidates_stage history0 since0 source_user tweets env

/-- A sequence of runs against persisted state: each run loads the state the
previous run flushed.  Returns the final HistorySet, the final since_ids and
the concatenation of all ids published across the runs. -/
def run_sequence (pool : List String) (history0 : Finset String)
    (since0 : SinceMap) :
    List (ℕ × RunEnv) → Finset String × SinceMap × List String
  | [] => (history0, since0, [])
  | (minute, env) :: rest =>
    let r := pick_and_repost_from_slot pool minute history0 since0 env
    let rec_result := run_sequence pool r.history r.since_ids rest
    (rec_result.1, rec_result.2.1, r.published ++ rec_result.2.2)

/-- A persisted state document as the loader observes it: the file is absent,
present but unparsable (json.loads raises), or parses to a value. -/
inductive StateFile (α : Type) where
  | missing
  | corrupt
  | valid (a : α)
deriving DecidableEq, Repr

/-- load_history: set(json.loads(text)) when the file exists and parses,
the empty set when it is missing or json.loads raises (the except branch). -/
def load_history : StateFile (List String) → Finset String
  | .missing => ∅
  | .corrupt => ∅
  | .valid l => l.toFinset

/-- save_history: writes json.dumps(list(s)), i.e. a valid document holding
an enumeration of the set.  list(s) enumerates a Python set in an unspecified
order; the model fixes one concrete enumeration (the sorted one), which is
all the loader's set() constructor can depend on. -/
def save_history (s : Finset String) : StateFile (List String) :=
  .valid (s.sort (· ≤ ·))

/-- load_since_ids: the parsed dict, or the empty dict when the file is
missing or unparsable. -/
def load_since_ids : StateFile SinceMap → SinceMap
  | .missing => []
  | .corrupt => []
  | .valid d => d

/-- save_since_ids: writes json.dumps(d). -/
def save_since_ids (d : SinceMap) : StateFile SinceMap :=
  .valid d

/-- json.dumps(l, indent=2) for a list of id strings (the stored ids are
decimal digit strings, so no JSON escaping arises). -/
def json_dumps_list : List String → String
  | [] => "[]"
  | l => "[\n" ++
      String.intercalate ",\n" (l.map (fun s => "  \x22" ++ s ++ "\x22")) ++
      "\n]"

/-- The successive file contents observable while
HISTORY_FILE.write_text(new) runs: open(mode "w") first truncates the file,
then the text is written front to back, so a reader that opens the file
mid-write sees some front segment (here modelled at character granularity)
of the new contents; the last state is the complete document. -/
def write_text_states (new : String) : List String :=
  (List.range (new.data.length + 1)).map (fun k => String.mk (new.data.take k))

/-- The atomicity contract the spec asserts for a save that replaces `old`
with `new`: every observable intermediate state is one of the two complete
documents. -/
def atomic_overwrite (old new : String) : Prop :=
  ∀ s ∈ write_text_states new, s = old ∨ s = new

/-- The file states a reader can observe while save_history(s) performs its
HISTORY_FILE.write_text(json.dumps(list(s), indent=2)). -/
def save_history_write_states (s : Finset String) : List String :=
  write_text_states (json_dumps_list (s.sort (· ≤ ·)))

end RepostBot

namespace RepostBot.Backoff

/-- exponential_backoff of src/twitter/post_repost.py: min(base ** attempt,
cap) with base = 2.0 and cap = 300 (exact in double for the attempt counts
the wrapper can reach). -/
def exponential_backoff (attempt : ℕ) : ℚ :=
  min ((2 : ℚ) ^ attempt) 300

/-- Outcome of one underlying call as classified by the backoff
safe_api_call's except clauses: success, tweepy.TooManyRequests, HTTPError
with status 429 (each carrying the parsed x-rate-limit-reset header when
present and parsable), HTTPError with another status, RequestException, or
any other exception. -/
inductive ApiOutcome (α : Type) where
  | ok (a : α)
  | tooManyRequests (reset : Option ℕ)
  | http429 (reset : Option ℕ)
  | httpOther
  | requestException
  | otherError
deriving DecidableEq, Repr

/-- How the backoff wrapper ends: with the value, or re-raising the last
failure to the caller. -/
inductive CallResult (α : Type) where
  | ok (a : α)
  | raised (e : ApiOutcome α)
deriving DecidableEq, Repr

/-- The sleep chosen for one rate-limited failure: with a reset hint the
wrapper sleeps max(0, reset - time.time()) + 2 seconds (until the reset
instant plus a 2 second margin) and skips the exponential branch via
`continue`; without a hint it sleeps exponential_backoff(attempt). -/
def rl_sleep (reset : Option ℕ) (now : ℤ) (attempt : ℕ) : ℚ :=
  match reset with
  | some r => ((max 0 ((r : ℤ) - now) : ℤ) : ℚ) + 2
  | none => exponential_backoff attempt

/-- The retry loop of the backoff safe_api_call.  `outcomes i` is what the
i-th invocation of func produces and `nows i` is int(time.time()) observed
while handling it; `attempt` is the source's failure counter and `fuel` is
max_retries - attempt, so the fuel-0 case is exactly the source's
`attempt > max_retries: raise`.  Returns the final result, the number of
invocations of func, and the list of sleeps performed. -/
def safe_go {α : Type} (outcomes : ℕ → ApiOutcome α) (nows : ℕ → ℤ) :
    ℕ → ℕ → ℕ → CallResult α × ℕ × List ℚ
  | fuel, attempt, idx =>
    match outcomes idx with
    | .ok a => (.ok a, idx + 1, [])
    | .tooManyRequests reset =>
      match fuel with
      | 0 => (.raised (.tooManyRequests reset), idx + 1, [])
      | fuel' + 1 =>
        let s := rl_sleep reset (nows idx) (attempt + 1)
        let r := safe_go outcomes nows fuel' (attempt + 1) (idx + 1)
        (r.1, r.2.1, s :: r.2.2)
    | .http429 reset =>
      match fuel with
      | 0 => (.raised (.http429 reset), idx + 1, [])
      | fuel' + 1 =>
        let s := rl_sleep reset (nows idx) (attempt + 1)
        let r := safe_go outcomes nows fuel' (attempt + 1) (idx + 1)
        (r.1, r.2.1, s :: r.2.2)
    | .requestException =>
      match fuel with
      | 0 => (.raised .requestException, idx + 1, [])
      | fuel' + 1 =>
        let s := exponential_backoff (attempt + 1)
        let r := safe_go outcomes nows fuel' (attempt + 1) (idx + 1)
        (r.1, r.2.1, s :: r.2.2)
    | .httpOther => (.raised .httpOther, idx + 1, [])
    | .otherError => (.raised .otherError, idx + 1, [])

/-- safe_api_call of src/twitter/post_repost.py: the retry loop started with
attempt = 0 (the source default for the ceiling is max_retries = 4). -/
def safe_api_call {α : Type} (max_retries : ℕ) (outcomes : ℕ → ApiOutcome α)
    (nows : ℕ → ℤ) : CallResult α × ℕ × List ℚ :=
  safe_go outcomes nows max_retries 0 0

/-- Recognises the two rate-limited outcome shapes. -/
def ApiOutcome.isRateLimited {α : Type} : ApiOutcome α → Bool
  | .tooManyRequests _ => true
  | .http429 _ => true
  | _ => false

/-- The reset hint carried by a rate-limited outcome. -/
def ApiOutcome.resetHint {α : Type} : ApiOutcome α → Option ℕ
  | .tooManyRequests r => r
  | .http429 r => r
  | _ => none

end RepostBot.Backoff

namespace RepostBot

/-! ## Supporting lemmas -/

/-- get_recent_media_tweets catches every ordinary exception internally, so
it never propagates one. -/
lemma get_recent_media_tweets_ne_raised (env : FetchEnv) :
    get_recent_media_tweets env ≠ .raised := by
  rcases env with ⟨gu, gt⟩
  cases gu with
  | ok a => cases a <;> cases gt <;> simp [get_recent_media_tweets, safe_api_call]
  | rateLimited h b => simp [get_recent_media_tweets, safe_api_call]
  | err => simp [get_recent_media_tweets, safe_api_call]

/-- Every media item kept by the valid-media loop has type photo and a
truthy url. -/
lemma valid_media_spec {ms : List MediaItem} {keys : List String} :
    ∀ m ∈ valid_media ms keys, m.mtype = some "photo" ∧ truthyStr m.url = true := by
  intro m hm
  simp only [valid_media, List.mem_filterMap] at hm
  obtain ⟨k, -, hk⟩ := hm
  rcases hmm : media_map_get ms k with - | mm
  · simp [hmm] at hk
  · simp only [hmm] at hk
    by_cases h1 : mm.mtype = some "photo"
    · by_cases h2 : truthyStr mm.url = true
      · simp [h1, h2] at hk
        subst hk; exact ⟨h1, h2⟩
      · simp [h1, h2] at hk
    · simp [h1] at hk

/-- Every candidate the fetcher produces carries a non-empty valid media
list, all of whose items are photos with truthy urls. -/
lemma response_media_tweets_spec (resp : TweetsResponse) :
    ∀ c ∈ response_media_tweets resp,
      c.2 ≠ [] ∧ ∀ m ∈ c.2, m.mtype = some "photo" ∧ truthyStr m.url = true := by
  intro c hc
  simp only [response_media_tweets, List.mem_filterMap] at hc
  obtain ⟨t, -, ht⟩ := hc
  by_cases h : (valid_media resp.includes_media t.media_keys).isEmpty
  · simp [h] at ht
  · rw [if_neg (by simpa using h), Option.some.injEq] at ht
    subst ht
    refine ⟨by simpa [List.isEmpty_iff] using h, valid_media_spec⟩

/-- Whatever the fetch environment, a successful fetch returns candidates
that all satisfy the photo / truthy-url property. -/
lemma get_recent_ok_spec {env : FetchEnv} {l : List Candidate}
    (h : get_recent_media_tweets env = .ok l) :
    ∀ c ∈ l, c.2 ≠ [] ∧ ∀ m ∈ c.2, m.mtype = some "photo" ∧ truthyStr m.url = true := by
  rcases env with ⟨gu, gt⟩
  cases gu with
  | ok a =>
    cases a with
    | none =>
      simp [get_recent_media_tweets, safe_api_call] at h
      subst h; simp
    | some uid =>
      cases gt with
      | ok resp =>
        simp [get_recent_media_tweets, safe_api_call] at h
        subst h; exact response_media_tweets_spec resp
      | rateLimited hs b => simp [get_recent_media_tweets, safe_api_call] at h
      | err =>
        simp [get_recent_media_tweets, safe_api_call] at h
        subst h; simp
  | rateLimited hs b => simp [get_recent_media_tweets, safe_api_call] at h
  | err =>
    simp [get_recent_media_tweets, safe_api_call] at h
    subst h; simp

/-- random.choice picks an element of a non-empty list (the model reduces
the draw modulo the length). -/
lemma getD_mod_mem {α : Type} (l : List α) (i : ℕ) (d : α) (h : ¬ l.isEmpty) :
    l.getD (i % l.length) d ∈ l := by
  have hne : l ≠ [] := by simpa [List.isEmpty_iff] using h
  have hlen : 0 < l.length := List.length_pos.mpr hne
  have hlt : i % l.length < l.length := Nat.mod_lt _ hlen
  rw [List.getD_eq_getElem?_getD, List.getElem?_eq_getElem hlt]
  exact List.getElem_mem hlt

/-- The reasons of the run exits that neither mutate state nor write. -/
def untouchedReasons : List StopReason :=
  [.emptyPool, .fetchRateLimitExit, .refetchRateLimitExit, .noNewTweets,
   .missingMediaUrl, .downloadFailed, .uploadRateLimitExit, .uploadFailed,
   .publishRateLimitExit, .publishBothFailed, .crashed]

/-- Branch structure of one run: either it stops without touching state, or
it advances the cursor from the unbounded re-fetch batch, or from an
all-in-history incremental batch, or it publishes one previously unseen
candidate of the incremental batch and commits both state documents. -/
lemma run_characterization (pool : List String) (minute : ℕ)
    (h0 : Finset String) (s0 : SinceMap) (env : RunEnv) :
    (∃ why ∈ untouchedReasons,
      pick_and_repost_from_slot pool minute h0 s0 env = stopRun why h0 s0) ∨
    (∃ l, get_recent_media_tweets env.fetch_all = .ok l ∧ l ≠ [] ∧
      pick_and_repost_from_slot pool minute h0 s0 env =
        ⟨.noNewTweetsCursorAdvanced, h0,
          dict_set s0 (select_source pool minute) (toString (batch_max l)),
          [], [dict_set s0 (select_source pool minute) (toString (batch_max l))],
          []⟩) ∨
    (∃ tweets, get_recent_media_tweets env.fetch_incr = .ok tweets ∧
      tweets ≠ [] ∧
      pick_and_repost_from_slot pool minute h0 s0 env =
        ⟨.allInHistory, h0,
          dict_set s0 (select_source pool minute) (toString (batch_max tweets)),
          [],
          [dict_set s0 (select_source pool minute) (toString (batch_max tweets))],
          []⟩) ∨
    (∃ tweets chosen, get_recent_media_tweets env.fetch_incr = .ok tweets ∧
      tweets ≠ [] ∧ chosen ∈ tweets ∧ toString (Prod.fst chosen).id ∉ h0 ∧
      pick_and_repost_from_slot pool minute h0 s0 env =
        commit_run h0 s0 (select_source pool minute)
          (toString (Prod.fst chosen).id) tweets) := by
  by_cases hp : pool.isEmpty
  · exact Or.inl ⟨.emptyPool, by simp [untouchedReasons],
      by simp [pick_and_repost_from_slot, hp]⟩
  · cases hf : get_recent_media_tweets env.fetch_incr with
    | exited =>
      exact Or.inl ⟨.fetchRateLimitExit, by simp [untouchedReasons],
        by simp [pick_and_repost_from_slot, hp, hf]⟩
    | raised =>
      exact Or.inl ⟨.crashed, by simp [untouchedReasons],
        by simp [pick_and_repost_from_slot, hp, hf]⟩
    | ok tweets =>
      by_cases ht : tweets.isEmpty
      · have hstep : pick_and_repost_from_slot pool minute h0 s0 env =
            refetch_stage h0 s0 (select_source pool minute) env := by
          simp [pick_and_repost_from_slot, hp, hf, ht]
        rw [hstep]
        cases hfa : get_recent_media_tweets env.fetch_all with
        | exited =>
          exact Or.inl ⟨.refetchRateLimitExit, by simp [untouchedReasons],
            by simp [refetch_stage, hfa]⟩
        | raised =>
          exact Or.inl ⟨.noNewTweets, by simp [untouchedReasons],
            by simp [refetch_stage, hfa]⟩
        | ok l =>
          by_cases hl : l.isEmpty
          · exact Or.inl ⟨.noNewTweets, by simp [untouchedReasons],
              by simp [refetch_stage, hfa, hl]⟩
          · exact Or.inr (Or.inl ⟨l, rfl, by simpa [List.isEmpty_iff] using hl,
              by simp [refetch_stage, hfa, hl]⟩)
      · have hstep : pick_and_repost_from_slot pool minute h0 s0 env =
            candidates_stage h0 s0 (select_source pool minute) tweets env := by
          simp [pick_and_repost_from_slot, hp, hf, ht]
        rw [hstep]
        by_cases hc :
            (tweets.filter (fun p => !decide (toString p.1.id ∈ h0))).isEmpty
        · exact Or.inr (Or.inr (Or.inl ⟨tweets, rfl,
            by simpa [List.isEmpty_iff] using ht,
            by simp [candidates_stage, hc]⟩))
        · have hcs : candidates_stage h0 s0 (select_source pool minute)
              tweets env =
              chosen_stage h0 s0 (select_source pool minute)
                ((tweets.filter
                    (fun p => !decide (toString p.1.id ∈ h0))).getD
                  (env.choice %
                    (tweets.filter
                      (fun p => !decide (toString p.1.id ∈ h0))).length)
                  (⟨0, []⟩, []))
                tweets env := by
            simp [candidates_stage, hc]
          rw [hcs]
          have hmemc := getD_mod_mem
            (tweets.filter (fun p => !decide (toString p.1.id ∈ h0)))
            env.choice (⟨0, []⟩, []) hc
          generalize hch :
            (tweets.filter (fun p => !decide (toString p.1.id ∈ h0))).getD
              (env.choice %
                (tweets.filter
                  (fun p => !decide (toString p.1.id ∈ h0))).length)
              (⟨0, []⟩, []) = chosen at hmemc hcs ⊢
          have hmem : chosen ∈ tweets ∧ toString chosen.1.id ∉ h0 := by
            have h2 := List.mem_filter.mp hmemc
            exact ⟨h2.1, by simpa using h2.2⟩
          cases hm2 : chosen.2 with
          | nil =>
            exact Or.inl ⟨.crashed, by simp [untouchedReasons],
              by simp [chosen_stage, hm2]⟩
          | cons media_obj rest =>
            by_cases hurl : truthyStr media_obj.url
            · by_cases hdl : env.download_ok
              · have hcs2 : chosen_stage h0 s0 (select_source pool minute)
                    chosen tweets env =
                    upload_stage h0 s0 (select_source pool minute)
                      (toString chosen.1.id) tweets env := by
                  simp [chosen_stage, hm2, hurl, hdl]
                rw [hcs2]
                cases hup : (safe_api_call env.upload).1 with
                | exited =>
                  exact Or.inl ⟨.uploadRateLimitExit,
                    by simp [untouchedReasons], by simp [upload_stage, hup]⟩
                | raised =>
                  exact Or.inl ⟨.uploadFailed, by simp [untouchedReasons],
                    by simp [upload_stage, hup]⟩
                | ok mid =>
                  have hcs3 : upload_stage h0 s0 (select_source pool minute)
                      (toString chosen.1.id) tweets env =
                      publish_stage h0 s0 (select_source pool minute)
                        (toString chosen.1.id) tweets env := by
                    simp [upload_stage, hup]
                  rw [hcs3]
                  cases hct : (safe_api_call env.create_tweet).1 with
                  | ok u =>
                    exact Or.inr (Or.inr (Or.inr ⟨tweets, chosen, rfl,
                      by simpa [List.isEmpty_iff] using ht, hmem.1, hmem.2,
                      by simp [publish_stage, hct]⟩))
                  | exited =>
                    exact Or.inl ⟨.publishRateLimitExit,
                      by simp [untouchedReasons], by simp [publish_stage, hct]⟩
                  | raised =>
                    cases hus : (safe_api_call env.update_status).1 with
                    | ok u =>
                      exact Or.inr (Or.inr (Or.inr ⟨tweets, chosen, rfl,
                        by simpa [List.isEmpty_iff] using ht, hmem.1, hmem.2,
                        by simp [publish_stage, hct, hus]⟩))
                    | exited =>
                      exact Or.inl ⟨.publishRateLimitExit,
                        by simp [untouchedReasons],
                        by simp [publish_stage, hct, hus]⟩
                    | raised =>
                      exact Or.inl ⟨.publishBothFailed,
                        by simp [untouchedReasons],
                        by simp [publish_stage, hct, hus]⟩
              · exact Or.inl ⟨.downloadFailed, by simp [untouchedReasons],
                  by simp [chosen_stage, hm2, hurl, hdl]⟩
            · exact Or.inl ⟨.missingMediaUrl, by simp [untouchedReasons],
                by simp [chosen_stage, hm2, hurl]⟩

lemma foldl_max_init_le (l : List ℕ) (a : ℕ) : a ≤ l.foldl max a := by
  induction l generalizing a with
  | nil => simp
  | cons x xs ih => exact le_trans (le_max_left a x) (ih (max a x))

lemma le_foldl_max_of_mem {l : List ℕ} {x : ℕ} (h : x ∈ l) (a : ℕ) :
    x ≤ l.foldl max a := by
  induction l generalizing a with
  | nil => cases h
  | cons y ys ih =>
    rcases List.mem_cons.mp h with rfl | h2
    · exact le_trans (le_max_right a x) (foldl_max_init_le ys (max a x))
    · exact ih h2 (max a y)

/-- Every id of a batch is bounded by the stored batch maximum. -/
lemma le_batch_max {tweets : List Candidate} {p : Candidate}
    (hp : p ∈ tweets) : p.1.id ≤ batch_max tweets :=
  le_foldl_max_of_mem (List.mem_map_of_mem (fun q => q.1.id) hp) 0

lemma find?_map_dict_set_self (d : SinceMap) (k v : String) :
    (d.map (fun p => if p.1 == k then (k, v) else p)).find?
        (fun p => p.1 == k) =
      if (d.find? (fun p => p.1 == k)).isSome then some (k, v) else none := by
  induction d with
  | nil => simp
  | cons p d2 ih =>
    simp only [List.map_cons]
    by_cases hp : (p.1 == k) = true
    · rw [if_pos hp]
      have hfk : (((k, v) : String × String).1 == k) = true := by simp
      simp only [List.find?_cons, hfk, hp]
      simp
    · rw [if_neg hp]
      have hp2 : (p.1 == k) = false := by simpa using hp
      simp only [List.find?_cons, hp2]
      exact ih

lemma find?_map_dict_set_other (d : SinceMap) (k v k2 : String)
    (h : k2 ≠ k) :
    (d.map (fun p => if p.1 == k then (k, v) else p)).find?
        (fun p => p.1 == k2) =
      d.find? (fun p => p.1 == k2) := by
  have h1 : (k == k2) = false := by
    simp only [beq_eq_false_iff_ne, ne_eq]
    exact fun e => h e.symm
  induction d with
  | nil => simp
  | cons p d2 ih =>
    simp only [List.map_cons]
    by_cases hp : (p.1 == k) = true
    · have hpk : p.1 = k := by simpa using hp
      have h2 : (p.1 == k2) = false := by rw [hpk]; exact h1
      rw [if_pos hp]
      simp only [List.find?_cons, h1, h2]
      exact ih
    · rw [if_neg hp]
      by_cases hq : (p.1 == k2) = true
      · simp only [List.find?_cons, hq]
      · have hq2 : (p.1 == k2) = false := by simpa using hq
        simp only [List.find?_cons, hq2]
        exact ih

/-- After since_ids[k] = v, the stored value at k is v. -/
lemma dict_get_set_self (d : SinceMap) (k v : String) :
    dict_get (dict_set d k v) k = some v := by
  unfold dict_set dict_get
  by_cases h : (d.find? (fun p => p.1 == k)).isSome
  · rw [if_pos h, find?_map_dict_set_self, if_pos h]
    rfl
  · have hn : d.find? (fun p => p.1 == k) = none :=
      Option.not_isSome_iff_eq_none.mp h
    rw [if_neg h, List.find?_append, hn]
    simp [List.find?_cons]

/-- since_ids[k] = v leaves every other key unchanged. -/
lemma dict_get_set_other (d : SinceMap) (k v k2 : String) (h : k2 ≠ k) :
    dict_get (dict_set d k v) k2 = dict_get d k2 := by
  unfold dict_set dict_get
  by_cases hs : (d.find? (fun p => p.1 == k)).isSome
  · rw [if_pos hs, find?_map_dict_set_other d k v k2 h]
  · have h1 : (k == k2) = false := by
      simp only [beq_eq_false_iff_ne, ne_eq]
      exact fun e => h e.symm
    rw [if_neg hs, List.find?_append]
    simp [List.find?_cons, h1]

/-- Each run either publishes nothing and keeps the loaded history, or
publishes exactly one id that was not in the loaded history and adds exactly
that id. -/
lemma run_published_spec (pool : List String) (minute : ℕ)
    (h0 : Finset String) (s0 : SinceMap) (env : RunEnv) :
    ((pick_and_repost_from_slot pool minute h0 s0 env).published = [] ∧
      (pick_and_repost_from_slot pool minute h0 s0 env).history = h0) ∨
    (∃ t, t ∉ h0 ∧
      (pick_and_repost_from_slot pool minute h0 s0 env).published = [t] ∧
      (pick_and_repost_from_slot pool minute h0 s0 env).history =
        insert t h0) := by
  rcases run_characterization pool minute h0 s0 env with
    ⟨why, -, heq⟩ | ⟨l, -, -, heq⟩ | ⟨tweets, -, -, heq⟩ |
    ⟨tweets, chosen, -, -, -, hnotin, heq⟩
  · exact Or.inl (by simp [heq, stopRun])
  · exact Or.inl (by simp [heq])
  · exact Or.inl (by simp [heq])
  · exact Or.inr ⟨toString chosen.1.id, hnotin,
      by simp [heq, commit_run], by simp [heq, commit_run]⟩

/-- Once an id is in the history, no later run of the sequence publishes it. -/
lemma run_sequence_no_republish (pool : List String) :
    ∀ (runs : List (ℕ × RunEnv)) (h0 : Finset String) (s0 : SinceMap)
      (tid : String), tid ∈ h0 →
      tid ∉ (run_sequence pool h0 s0 runs).2.2 := by
  intro runs
  induction runs with
  | nil => intro h0 s0 tid h; simp [run_sequence]
  | cons me rest ih =>
    rintro h0 s0 tid h
    rcases me with ⟨minute, env⟩
    have hspec := run_published_spec pool minute h0 s0 env
    simp only [run_sequence, List.mem_append, not_or]
    refine ⟨?_, ?_⟩
    · rcases hspec with ⟨hpub, -⟩ | ⟨t, htnot, hpub, -⟩
      · simp [hpub]
      · simp only [hpub, List.mem_singleton]
        rintro rfl; exact htnot h
    · rcases hspec with ⟨-, hhist⟩ | ⟨t, -, -, hhist⟩
      · exact ih _ _ tid (by rw [hhist]; exact h)
      · exact ih _ _ tid (by rw [hhist]; exact Finset.mem_insert_of_mem h)

/-! ## Concrete fixtures for witnesses and counterexamples -/

/-- A tweet with id 101 carrying one media key. -/
def tw101 : Tweet := ⟨101, ["k1"]⟩

/-- A photo media object with a resolvable url, under key k1. -/
def photo1 : MediaItem := ⟨"k1", some "photo", some "pic1"⟩

/-- A response holding exactly tweet 101 with photo1 attached. -/
def resp101 : TweetsResponse := ⟨[tw101], [photo1]⟩

/-- A fetch in which both remote calls succeed and return resp101. -/
def fetch101 : FetchEnv := ⟨.ok (some 1), .ok resp101⟩

/-- A fetch whose tweet call succeeds but returns no tweets. -/
def fetchNone : FetchEnv := ⟨.ok (some 1), .ok ⟨[], []⟩⟩

/-- A tweet with id 50 carrying the same media key. -/
def tw50 : Tweet := ⟨50, ["k1"]⟩

/-- A fetch returning only tweet 50. -/
def fetch50 : FetchEnv := ⟨.ok (some 1), .ok ⟨[tw50], [photo1]⟩⟩

/-- An environment in which everything succeeds until publish, and both
publish surfaces raise ordinary exceptions. -/
def envBothFail : RunEnv := ⟨fetch101, fetch101, 0, true, .ok 5, .err, .err⟩

/-- An environment in which the media download fails. -/
def envDownloadFail : RunEnv :=
  ⟨fetch101, fetch101, 0, false, .ok 5, .ok (), .ok ()⟩

/-- An environment in which the incremental fetch is empty and the unbounded
re-fetch returns only tweet 50. -/
def envRefetch50 : RunEnv := ⟨fetchNone, fetch50, 0, true, .ok 5, .ok (), .ok ()⟩

/-- An environment in which the whole pipeline succeeds. -/
def envPublishOk : RunEnv := ⟨fetch101, fetch101, 0, true, .ok 5, .ok (), .ok ()⟩

/-- At midnight the current slot is 0 (used to evaluate concrete runs). -/
lemma slot0 : current_slot_index_7 0 = 0 := by
  simp [current_slot_index_7, slot_of, slot_length]

/-! ## Claims -/

/-- C1: the candidate list is filtered against the loaded history before the
random selection, so no run publishes an id already in the history at
selection time; an id is added to the history only together with a publish
success (the history otherwise stays exactly the loaded one); hence an id
once in the history set is never published again in the same or any later
run of a sequence. -/
theorem history_never_republished (pool : List String) (h0 : Finset String)
    (s0 : SinceMap) (runs : List (ℕ × RunEnv)) (tid : String)
    (h : tid ∈ h0) :
    (∀ (minute : ℕ) (env : RunEnv) (t : String),
      t ∈ (pick_and_repost_from_slot pool minute h0 s0 env).published →
      t ∉ h0) ∧
    (∀ (minute : ℕ) (env : RunEnv),
      ((pick_and_repost_from_slot pool minute h0 s0 env).published = [] ∧
        (pick_and_repost_from_slot pool minute h0 s0 env).history = h0) ∨
      (∃ t, t ∉ h0 ∧
        (pick_and_repost_from_slot pool minute h0 s0 env).published = [t] ∧
        (pick_and_repost_from_slot pool minute h0 s0 env).history =
          insert t h0)) ∧
    tid ∉ (run_sequence pool h0 s0 runs).2.2 := by
  refine ⟨?_, fun minute env => run_published_spec pool minute h0 s0 env,
    run_sequence_no_republish pool runs h0 s0 tid h⟩
  intro minute env t ht
  rcases run_published_spec pool minute h0 s0 env with ⟨hpub, -⟩ |
    ⟨u, hunot, hpub, -⟩
  · rw [hpub] at ht; cases ht
  · rw [hpub] at ht
    rcases List.mem_singleton.mp ht with rfl
    exact hunot

/-- Witness for C1 at a concrete input: with "101" already in the loaded
history, a sequence consisting of one fully-successful run never publishes
"101". -/
theorem history_never_republished_witness :
    (∀ (minute : ℕ) (env : RunEnv) (t : String),
      t ∈ (pick_and_repost_from_slot ["a"] minute {"101"} [] env).published →
      t ∉ ({"101"} : Finset String)) ∧
    (∀ (minute : ℕ) (env : RunEnv),
      ((pick_and_repost_from_slot ["a"] minute {"101"} [] env).published = [] ∧
        (pick_and_repost_from_slot ["a"] minute {"101"} [] env).history =
          {"101"}) ∨
      (∃ t, t ∉ ({"101"} : Finset String) ∧
        (pick_and_repost_from_slot ["a"] minute {"101"} [] env).published =
          [t] ∧
        (pick_and_repost_from_slot ["a"] minute {"101"} [] env).history =
          insert t {"101"})) ∧
    "101" ∉ (run_sequence ["a"] {"101"} [] [(0, envPublishOk)]).2.2 :=
  history_never_republished ["a"] {"101"} [] [(0, envPublishOk)] "101"
    (by decide)

/-- C2: a run in which the publish step fails on both the primary (v2)
surface and the legacy (v1) fallback surface terminates with the history set
and the cursor map exactly as loaded at run start, having written neither
state document and published nothing. -/
theorem publish_both_fail_state_unchanged (pool : List String) (minute : ℕ)
    (h0 : Finset String) (s0 : SinceMap) (env : RunEnv)
    (h : (pick_and_repost_from_slot pool minute h0 s0 env).reason =
      .publishBothFailed) :
    (pick_and_repost_from_slot pool minute h0 s0 env).history = h0 ∧
    (pick_and_repost_from_slot pool minute h0 s0 env).since_ids = s0 ∧
    (pick_and_repost_from_slot pool minute h0 s0 env).history_writes = [] ∧
    (pick_and_repost_from_slot pool minute h0 s0 env).since_writes = [] ∧
    (pick_and_repost_from_slot pool minute h0 s0 env).published = [] := by
  rcases run_characterization pool minute h0 s0 env with
    ⟨why, hwhy, heq⟩ | ⟨l, -, -, heq⟩ | ⟨tweets, -, -, heq⟩ |
    ⟨tweets, chosen, -, -, -, -, heq⟩
  · rw [heq]
    exact ⟨rfl, rfl, rfl, rfl, rfl⟩
  · rw [heq] at h; simp at h
  · rw [heq] at h; simp at h
  · rw [heq] at h; simp [commit_run] at h

/-- Witness for C2 at a concrete input: both publish surfaces raise, and the
run leaves empty history, empty cursor map, no writes, nothing published. -/
theorem publish_both_fail_state_unchanged_witness :
    (pick_and_repost_from_slot ["a"] 0 ∅ [] envBothFail).history = ∅ ∧
    (pick_and_repost_from_slot ["a"] 0 ∅ [] envBothFail).since_ids = [] ∧
    (pick_and_repost_from_slot ["a"] 0 ∅ [] envBothFail).history_writes = [] ∧
    (pick_and_repost_from_slot ["a"] 0 ∅ [] envBothFail).since_writes = [] ∧
    (pick_and_repost_from_slot ["a"] 0 ∅ [] envBothFail).published = [] :=
  publish_both_fail_state_unchanged ["a"] 0 ∅ [] envBothFail (by
    simp [pick_and_repost_from_slot, select_source, slot0,
      get_recent_media_tweets, safe_api_call, response_media_tweets,
      valid_media, media_map_get, truthyStr, candidates_stage, chosen_stage,
      upload_stage, publish_stage, commit_run, batch_max, envBothFail,
      fetch101, resp101, tw101, photo1, stopRun])

/-- C3 counterexample: a run whose incremental fetch returns the non-empty
batch [tweet 101] but whose media download fails terminates WITHOUT
advancing the cursor map: the since map stays empty and the cursor for "a"
is not the batch maximum "101", contradicting the claim that the cursor is
advanced regardless of the failure mode. -/
theorem cursor_not_advanced_on_download_failure :
    get_recent_media_tweets envDownloadFail.fetch_incr =
      .ok [(tw101, [photo1])] ∧
    (pick_and_repost_from_slot ["a"] 0 ∅ [] envDownloadFail).reason =
      .downloadFailed ∧
    (pick_and_repost_from_slot ["a"] 0 ∅ [] envDownloadFail).since_ids = [] ∧
    (pick_and_repost_from_slot ["a"] 0 ∅ [] envDownloadFail).since_writes =
      [] ∧
    dict_get (pick_and_repost_from_slot ["a"] 0 ∅ [] envDownloadFail).since_ids
      "a" ≠ some "101" := by
  refine ⟨?_, ?_, ?_, ?_, ?_⟩ <;>
    simp [pick_and_repost_from_slot, select_source, slot0,
      get_recent_media_tweets, safe_api_call, response_media_tweets,
      valid_media, media_map_get, truthyStr, candidates_stage, chosen_stage,
      upload_stage, publish_stage, commit_run, batch_max, envDownloadFail,
      fetch101, resp101, tw101, photo1, stopRun, dict_get]

/-- C3 (amended): for a run whose incremental fetch returns a non-empty
batch, the cursor map entry for the selected source is advanced to the
numeric maximum of that batch (and flushed) exactly when the run ends in
the all-in-history outcome or in a publish success; runs that end in a
missing media url, a download failure, an upload failure or a publish
failure leave the cursor map unchanged and write no cursor document. -/
theorem cursor_advance_characterization (pool : List String) (minute : ℕ)
    (h0 : Finset String) (s0 : SinceMap) (env : RunEnv)
    (tweets : List Candidate)
    (hf : get_recent_media_tweets env.fetch_incr = .ok tweets)
    (hne : tweets ≠ []) :
    ((pick_and_repost_from_slot pool minute h0 s0 env).reason =
        .allInHistory ∨
      (pick_and_repost_from_slot pool minute h0 s0 env).reason = .published →
      (pick_and_repost_from_slot pool minute h0 s0 env).since_ids =
        dict_set s0 (select_source pool minute)
          (toString (batch_max tweets)) ∧
      (pick_and_repost_from_slot pool minute h0 s0 env).since_writes =
        [dict_set s0 (select_source pool minute)
          (toString (batch_max tweets))]) ∧
    ((pick_and_repost_from_slot pool minute h0 s0 env).reason ∈
        ([.missingMediaUrl, .downloadFailed, .uploadRateLimitExit,
          .uploadFailed, .publishRateLimitExit, .publishBothFailed] :
          List StopReason) →
      (pick_and_repost_from_slot pool minute h0 s0 env).since_ids = s0 ∧
      (pick_and_repost_from_slot pool minute h0 s0 env).since_writes = []) := by
  rcases run_characterization pool minute h0 s0 env with
    ⟨why, hwhy, heq⟩ | ⟨l, hl1, hl2, heq⟩ | ⟨tw, htw, htwne, heq⟩ |
    ⟨tw, chosen, htw, htwne, hmem, hnin, heq⟩
  · rw [heq]
    constructor
    · rintro (h | h) <;>
        (simp only [stopRun] at h; subst h;
          simp [untouchedReasons] at hwhy)
    · intro _; exact ⟨rfl, rfl⟩
  · rw [heq]
    constructor
    · rintro (h | h) <;> simp at h
    · intro h; simp at h
  · have htweq : tw = tweets := by
      rw [hf] at htw; exact (PyResult.ok.inj htw).symm
    subst htweq
    rw [heq]
    constructor
    · intro _; exact ⟨rfl, rfl⟩
    · intro h; simp at h
  · have htweq : tw = tweets := by
      rw [hf] at htw; exact (PyResult.ok.inj htw).symm
    subst htweq
    rw [heq]
    constructor
    · intro _; simp [commit_run]
    · intro h; simp [commit_run] at h

/-- Witness for the amended C3 at a concrete input: a fully successful run
over batch [tweet 101] advances the cursor of "a" to "101". -/
theorem cursor_advance_characterization_witness :
    ((pick_and_repost_from_slot ["a"] 0 ∅ [] envPublishOk).reason =
        .allInHistory ∨
      (pick_and_repost_from_slot ["a"] 0 ∅ [] envPublishOk).reason =
        .published →
      (pick_and_repost_from_slot ["a"] 0 ∅ [] envPublishOk).since_ids =
        dict_set [] (select_source ["a"] 0)
          (toString (batch_max [(tw101, [photo1])])) ∧
      (pick_and_repost_from_slot ["a"] 0 ∅ [] envPublishOk).since_writes =
        [dict_set [] (select_source ["a"] 0)
          (toString (batch_max [(tw101, [photo1])]))]) ∧
    ((pick_and_repost_from_slot ["a"] 0 ∅ [] envPublishOk).reason ∈
        ([.missingMediaUrl, .downloadFailed, .uploadRateLimitExit,
          .uploadFailed, .publishRateLimitExit, .publishBothFailed] :
          List StopReason) →
      (pick_and_repost_from_slot ["a"] 0 ∅ [] envPublishOk).since_ids = [] ∧
      (pick_and_repost_from_slot ["a"] 0 ∅ [] envPublishOk).since_writes =
        []) :=
  cursor_advance_characterization ["a"] 0 ∅ [] envPublishOk
    [(tw101, [photo1])]
    (by simp [get_recent_media_tweets, safe_api_call, response_media_tweets,
      valid_media, media_map_get, truthyStr, envPublishOk, fetch101, resp101,
      tw101, photo1])
    (by simp)

/-- C4 counterexample: with cursor "103" stored for source "a", an empty
incremental fetch followed by an unbounded re-fetch that returns only tweet
50 makes the run assign since_ids["a"] = "50", numerically smaller than the
previously stored "103" - an assignment that decreases the cursor,
contradicting the claim that every assignment writes a value greater than or
equal to the stored one. -/
theorem cursor_can_decrease_on_refetch :
    dict_get [("a", "103")] "a" = some "103" ∧
    (pick_and_repost_from_slot ["a"] 0 ∅ [("a", "103")]
      envRefetch50).reason = .noNewTweetsCursorAdvanced ∧
    dict_get (pick_and_repost_from_slot ["a"] 0 ∅ [("a", "103")]
      envRefetch50).since_ids "a" = some "50" ∧
    (50 : ℕ) < 103 := by
  refine ⟨by simp [dict_get], ?_, ?_, by norm_num⟩
  · simp [pick_and_repost_from_slot, select_source, slot0,
      get_recent_media_tweets, safe_api_call, response_media_tweets,
      valid_media, media_map_get, truthyStr, refetch_stage, batch_max,
      envRefetch50, fetchNone, fetch50, tw50, photo1, stopRun, dict_get,
      dict_set]
  · simp [pick_and_repost_from_slot, select_source, slot0,
      get_recent_media_tweets, safe_api_call, response_media_tweets,
      valid_media, media_map_get, truthyStr, refetch_stage, batch_max,
      envRefetch50, fetchNone, fetch50, tw50, photo1, stopRun, dict_get,
      dict_set]
    decide

/-- C4 (amended): the cursor entry of the selected source never decreases in
a run PROVIDED the fetched batches honour the cursor contract: every id of
the incremental batch is at least the stored cursor value (the since_id
filter), and a non-empty unbounded re-fetch still observes an id at least
the stored cursor value.  Under those hypotheses every assignment writes a
numerically greater-or-equal value, and entries of other sources are never
touched.  Without the re-fetch hypothesis the cursor can move backward, as
the counterexample shows. -/
theorem cursor_monotone_under_since_contract (pool : List String)
    (minute : ℕ) (h0 : Finset String) (s0 : SinceMap) (env : RunEnv)
    (m : ℕ)
    (hm : dict_get s0 (select_source pool minute) = some (toString m))
    (Hincr : ∀ tweets, get_recent_media_tweets env.fetch_incr = .ok tweets →
      ∀ p ∈ tweets, m ≤ p.1.id)
    (Hall : ∀ l, get_recent_media_tweets env.fetch_all = .ok l → l ≠ [] →
      m ≤ batch_max l) :
    (∃ n, m ≤ n ∧
      dict_get (pick_and_repost_from_slot pool minute h0 s0 env).since_ids
        (select_source pool minute) = some (toString n)) ∧
    ∀ k, k ≠ select_source pool minute →
      dict_get (pick_and_repost_from_slot pool minute h0 s0 env).since_ids
        k = dict_get s0 k := by
  rcases run_characterization pool minute h0 s0 env with
    ⟨why, hwhy, heq⟩ | ⟨l, hl1, hl2, heq⟩ | ⟨tw, htw, htwne, heq⟩ |
    ⟨tw, chosen, htw, htwne, hmem, hnin, heq⟩
  · rw [heq]
    exact ⟨⟨m, le_refl m, hm⟩, fun k _ => rfl⟩
  · rw [heq]
    refine ⟨⟨batch_max l, Hall l hl1 hl2, ?_⟩, fun k hk => ?_⟩
    · exact dict_get_set_self s0 (select_source pool minute)
        (toString (batch_max l))
    · exact dict_get_set_other s0 (select_source pool minute)
        (toString (batch_max l)) k hk
  · rw [heq]
    obtain ⟨p, hp⟩ := List.exists_mem_of_ne_nil tw htwne
    refine ⟨⟨batch_max tw,
        le_trans (Hincr tw htw p hp) (le_batch_max hp), ?_⟩,
      fun k hk => ?_⟩
    · exact dict_get_set_self s0 (select_source pool minute)
        (toString (batch_max tw))
    · exact dict_get_set_other s0 (select_source pool minute)
        (toString (batch_max tw)) k hk
  · rw [heq]
    obtain ⟨p, hp⟩ := List.exists_mem_of_ne_nil tw htwne
    refine ⟨⟨batch_max tw,
        le_trans (Hincr tw htw p hp) (le_batch_max hp), ?_⟩,
      fun k hk => ?_⟩
    · simpa [commit_run] using
        dict_get_set_self s0 (select_source pool minute)
          (toString (batch_max tw))
    · simpa [commit_run] using
        dict_get_set_other s0 (select_source pool minute)
          (toString (batch_max tw)) k hk

/-- Witness for the amended C4 at a concrete input: with cursor "100" stored
for "a" and a successful run over batch [tweet 101], the cursor ends at some
value at least 100 and the entries of other keys are untouched. -/
theorem cursor_monotone_under_since_contract_witness :
    (∃ n, 100 ≤ n ∧
      dict_get (pick_and_repost_from_slot ["a"] 0 ∅ [("a", "100")]
        envPublishOk).since_ids (select_source ["a"] 0) =
        some (toString n)) ∧
    ∀ k, k ≠ select_source ["a"] 0 →
      dict_get (pick_and_repost_from_slot ["a"] 0 ∅ [("a", "100")]
        envPublishOk).since_ids k = dict_get [("a", "100")] k :=
  cursor_monotone_under_since_contract ["a"] 0 ∅ [("a", "100")]
    envPublishOk 100
    (by
      have hsel : select_source ["a"] 0 = "a" := by
        simp [select_source, slot0]
      rw [hsel]; decide)
    (by
      intro tweets h
      simp [get_recent_media_tweets, safe_api_call, response_media_tweets,
        valid_media, media_map_get, truthyStr, envPublishOk, fetch101,
        resp101, tw101, photo1] at h
      subst h
      intro p hp
      simp at hp
      subst hp
      decide)
    (by
      intro l h
      simp [get_recent_media_tweets, safe_api_call, response_media_tweets,
        valid_media, media_map_get, truthyStr, envPublishOk, fetch101,
        resp101, tw101, photo1] at h
      subst h
      intro hne
      simp [batch_max, tw101])

/-- An environment whose incremental list-recent-posts call is rate-limited
(get_user succeeds, get_users_tweets raises a 429 with one rate header). -/
def envRateLimited : RunEnv :=
  ⟨⟨.ok (some 1), .rateLimited [("x-rate-limit-reset", "99")] "quota"⟩,
    fetch101, 0, true, .ok 5, .ok (), .ok ()⟩

/-- C5: under the quick-abort policy, a rate-limited remote call makes the
wrapper log every rate-limit header present and the response body and then
terminate the whole run through sys.exit(0) - the wrapper invokes the call
exactly once, so no retry happens - and a run whose list-recent-posts call
is rate-limited therefore stops at once with history and cursor map exactly
as loaded and neither state document written. -/
theorem rate_limit_abort_exits_without_mutation (pool : List String)
    (minute : ℕ) (h0 : Finset String) (s0 : SinceMap) (env : RunEnv)
    (uid : ℕ) (headers : List (String × String)) (body : String)
    (hpool : pool ≠ [])
    (hu : env.fetch_incr.get_user = .ok (some uid))
    (ht : env.fetch_incr.get_users_tweets = .rateLimited headers body) :
    (safe_api_call env.fetch_incr.get_users_tweets).1 =
      (PyResult.exited : PyResult TweetsResponse) ∧
    ("[HTTP BODY] " ++ body) ∈
      (safe_api_call env.fetch_incr.get_users_tweets).2 ∧
    (∀ hname ∈ rate_header_names, ∀ v, header_get headers hname = some v →
      ("[RATE HEADER] " ++ hname ++ ": " ++ v) ∈
        (safe_api_call env.fetch_incr.get_users_tweets).2) ∧
    pick_and_repost_from_slot pool minute h0 s0 env =
      stopRun .fetchRateLimitExit h0 s0 := by
  refine ⟨by rw [ht]; rfl, by rw [ht]; simp [safe_api_call], ?_, ?_⟩
  · intro hname hmem v hv
    rw [ht]
    simp only [safe_api_call]
    refine List.mem_append.mpr (Or.inl ?_)
    exact List.mem_filterMap.mpr ⟨hname, hmem, by rw [hv]; rfl⟩
  · have hfetch : get_recent_media_tweets env.fetch_incr = .exited := by
      simp [get_recent_media_tweets, safe_api_call, hu, ht]
    have hp : pool.isEmpty = false := by
      simpa [List.isEmpty_iff] using hpool
    simp [pick_and_repost_from_slot, hp, hfetch]

/-- Witness for C5 at a concrete input: one rate-limited fetch aborts the
run with nothing mutated, after logging the reset header and body. -/
theorem rate_limit_abort_exits_without_mutation_witness :
    (safe_api_call envRateLimited.fetch_incr.get_users_tweets).1 =
      (PyResult.exited : PyResult TweetsResponse) ∧
    ("[HTTP BODY] " ++ "quota") ∈
      (safe_api_call envRateLimited.fetch_incr.get_users_tweets).2 ∧
    (∀ hname ∈ rate_header_names, ∀ v,
      header_get [("x-rate-limit-reset", "99")] hname = some v →
      ("[RATE HEADER] " ++ hname ++ ": " ++ v) ∈
        (safe_api_call envRateLimited.fetch_incr.get_users_tweets).2) ∧
    pick_and_repost_from_slot ["a"] 0 ∅ [] envRateLimited =
      stopRun .fetchRateLimitExit ∅ [] :=
  rate_limit_abort_exits_without_mutation ["a"] 0 ∅ [] envRateLimited 1
    [("x-rate-limit-reset", "99")] "quota" (by decide) rfl rfl

end RepostBot

namespace RepostBot.Backoff

/-- While every call comes back TooManyRequests, the loop sleeps and retries
until the failure counter exceeds the remaining fuel, then re-raises the
rate-limited failure; it makes fuel + 1 calls and sleeps once per retry,
with the sleep of the j-th retry computed by rl_sleep at the failure counter
value attempt + 1 + j. -/
lemma safe_go_all_rate_limited {α : Type} (outcomes : ℕ → ApiOutcome α)
    (nows : ℕ → ℤ) (resets : ℕ → Option ℕ) :
    ∀ (fuel attempt idx : ℕ),
    (∀ j ≤ fuel, outcomes (idx + j) = .tooManyRequests (resets (idx + j))) →
    safe_go outcomes nows fuel attempt idx =
      (.raised (.tooManyRequests (resets (idx + fuel))), idx + fuel + 1,
        (List.range fuel).map (fun j =>
          rl_sleep (resets (idx + j)) (nows (idx + j)) (attempt + 1 + j))) := by
  intro fuel
  induction fuel with
  | zero =>
    intro attempt idx h
    have h0 := h 0 (le_refl 0)
    simp only [Nat.add_zero] at h0 ⊢
    rw [safe_go, h0]
    simp
  | succ fuel ih =>
    intro attempt idx h
    have h0 := h 0 (Nat.zero_le _)
    simp only [Nat.add_zero] at h0
    have hrec := ih (attempt + 1) (idx + 1) (fun j hj => by
      have h2 := h (j + 1) (Nat.succ_le_succ hj)
      have e : idx + (j + 1) = idx + 1 + j := by omega
      rw [e] at h2
      exact h2)
    simp only [safe_go, h0, hrec]
    have e1 : idx + 1 + fuel = idx + (fuel + 1) := by omega
    rw [e1]
    refine congrArg _ (congrArg _ ?_)
    rw [List.range_succ_eq_map, List.map_cons, List.map_map]
    refine congrArg₂ _ (by simp) ?_
    refine List.map_congr_left (fun j hj => ?_)
    have e2 : idx + 1 + j = idx + (j + 1) := by omega
    have e3 : attempt + 1 + 1 + j = attempt + 1 + (j + 1) := by omega
    simp only [Function.comp, e2, e3, Nat.succ_eq_add_one]

/-- If the first k calls are TooManyRequests and the (k+1)-st succeeds, and
k does not exceed the fuel, the loop returns the success after k + 1 calls
and k sleeps. -/
lemma safe_go_rate_limited_then_ok {α : Type} (outcomes : ℕ → ApiOutcome α)
    (nows : ℕ → ℤ) (resets : ℕ → Option ℕ) (a : α) :
    ∀ (k fuel attempt idx : ℕ), k ≤ fuel →
    (∀ j < k, outcomes (idx + j) = .tooManyRequests (resets (idx + j))) →
    outcomes (idx + k) = .ok a →
    safe_go outcomes nows fuel attempt idx =
      (.ok a, idx + k + 1,
        (List.range k).map (fun j =>
          rl_sleep (resets (idx + j)) (nows (idx + j)) (attempt + 1 + j))) := by
  intro k
  induction k with
  | zero =>
    intro fuel attempt idx _ _ hok
    simp only [Nat.add_zero] at hok ⊢
    cases fuel with
    | zero =>
      rw [safe_go, hok]
      simp
    | succ fuel =>
      simp only [safe_go, hok]
      simp
  | succ k ih =>
    intro fuel attempt idx hk hfail hok
    cases fuel with
    | zero => exact absurd hk (by omega)
    | succ fuel =>
      have h0 := hfail 0 (Nat.succ_pos k)
      simp only [Nat.add_zero] at h0
      have hrec := ih fuel (attempt + 1) (idx + 1) (by omega)
        (fun j hj => by
          have h2 := hfail (j + 1) (by omega)
          have e : idx + (j + 1) = idx + 1 + j := by omega
          rw [e] at h2
          exact h2)
        (by
          have e : idx + (k + 1) = idx + 1 + k := by omega
          rw [e] at hok
          exact hok)
      simp only [safe_go, h0, hrec]
      have e1 : idx + 1 + k = idx + (k + 1) := by omega
      rw [e1]
      refine congrArg _ (congrArg _ ?_)
      rw [List.range_succ_eq_map, List.map_cons, List.map_map]
      refine congrArg₂ _ (by simp) ?_
      refine List.map_congr_left (fun j hj => ?_)
      have e2 : idx + 1 + j = idx + (j + 1) := by omega
      have e3 : attempt + 1 + 1 + j = attempt + 1 + (j + 1) := by omega
      simp only [Function.comp, e2, e3, Nat.succ_eq_add_one]

/-- C6: under the backoff policy with retry ceiling N (the source default is
max_retries = 4), a rate-limited call is retried while the failure count
stays within N - each retry sleeps until the reset hint plus the fixed 2
second margin when the failure carries one, and exponential_backoff(attempt)
= min(2 ^ attempt, 300) otherwise - and once the failure count exceeds N the
rate-limited failure is re-raised to the caller after exactly N + 1
invocations of the wrapped call. -/
theorem backoff_retry_policy {α : Type} (N : ℕ)
    (outcomes : ℕ → ApiOutcome α) (nows : ℕ → ℤ) (resets : ℕ → Option ℕ) :
    ((∀ j, j ≤ N → outcomes j = .tooManyRequests (resets j)) →
      safe_api_call N outcomes nows =
        (.raised (.tooManyRequests (resets N)), N + 1,
          (List.range N).map (fun j =>
            rl_sleep (resets j) (nows j) (j + 1)))) ∧
    (∀ (k : ℕ) (a : α), k ≤ N →
      (∀ j, j < k → outcomes j = .tooManyRequests (resets j)) →
      outcomes k = .ok a →
      safe_api_call N outcomes nows =
        (.ok a, k + 1,
          (List.range k).map (fun j =>
            rl_sleep (resets j) (nows j) (j + 1)))) ∧
    (∀ (r : ℕ) (now : ℤ) (attempt : ℕ),
      rl_sleep (some r) now attempt =
        ((max 0 ((r : ℤ) - now) : ℤ) : ℚ) + 2) ∧
    (∀ (now : ℤ) (attempt : ℕ),
      rl_sleep none now attempt = exponential_backoff attempt ∧
      exponential_backoff attempt = min ((2 : ℚ) ^ attempt) 300) := by
  refine ⟨fun h => ?_, fun k a hk hf hok => ?_,
    fun r now attempt => rfl, fun now attempt => ⟨rfl, rfl⟩⟩
  · have h2 := safe_go_all_rate_limited outcomes nows resets N 0 0
      (fun j hj => by simpa using h j hj)
    rw [safe_api_call, h2]
    simp only [Nat.zero_add]
    refine congrArg _ (congrArg _ ?_)
    exact List.map_congr_left (fun j hj => by rw [Nat.add_comm 1 j])
  · have h2 := safe_go_rate_limited_then_ok outcomes nows resets a k N 0 0
      hk (fun j hj => by simpa using hf j hj) (by simpa using hok)
    rw [safe_api_call, h2]
    simp only [Nat.zero_add]
    refine congrArg _ (congrArg _ ?_)
    exact List.map_congr_left (fun j hj => by rw [Nat.add_comm 1 j])

/-- Witness for C6 at a concrete input: ceiling 2, every call rate-limited
with reset hint 10 observed at time 3: the wrapper surfaces the failure
after 3 calls and 2 sleeps. -/
theorem backoff_retry_policy_witness :
    safe_api_call 2
        (fun _ => (.tooManyRequests (some 10) : ApiOutcome Unit))
        (fun _ => (3 : ℤ)) =
      (.raised (.tooManyRequests (some 10)), 3,
        [rl_sleep (some 10) 3 1, rl_sleep (some 10) 3 2]) := by
  have h := (backoff_retry_policy 2
    (fun _ => (.tooManyRequests (some 10) : ApiOutcome Unit))
    (fun _ => (3 : ℤ)) (fun _ => some 10)).1 (fun j hj => rfl)
  simpa [List.range_succ] using h

end RepostBot.Backoff

namespace RepostBot

/-- C7: every minute of the UTC day falls in a slot with index in [0, 7);
over the rational timeline the slot function is exactly membership in the 7
contiguous intervals [s * L, (s + 1) * L) of equal length L = 1440 / 7, which
cover [0, 1440) exactly once; and the selected source is
pool[slot mod len(pool)], always an element of a non-empty pool. -/
theorem slot_rotation_partitions_day :
    (∀ m : ℕ, m < 1440 → current_slot_index_7 m < 7) ∧
    (∀ x : ℚ, 0 ≤ x → x < 1440 → 0 ≤ slot_of x ∧ slot_of x < 7) ∧
    (∀ (x : ℚ) (s : ℤ), slot_of x = s ↔
      (s : ℚ) * slot_length ≤ x ∧ x < ((s : ℚ) + 1) * slot_length) ∧
    (∀ s : ℤ, ((s : ℚ) + 1) * slot_length - (s : ℚ) * slot_length =
      slot_length) ∧
    (∀ (pool : List String) (minute : ℕ), pool ≠ [] →
      select_source pool minute =
        pool.getD (current_slot_index_7 minute % pool.length) "" ∧
      select_source pool minute ∈ pool) := by
  have hL : (0 : ℚ) < slot_length := by norm_num [slot_length]
  have hbounds : ∀ x : ℚ, 0 ≤ x → x < 1440 → 0 ≤ slot_of x ∧ slot_of x < 7 := by
    intro x hx0 hx1440
    constructor
    · exact Int.floor_nonneg.mpr (div_nonneg hx0 hL.le)
    · have h7 : x / slot_length < ((7 : ℤ) : ℚ) := by
        rw [div_lt_iff₀ hL]
        have h71 : ((7 : ℤ) : ℚ) * slot_length = 1440 := by
          norm_num [slot_length]
        rw [h71]
        exact hx1440
      exact Int.floor_lt.mpr h7
  refine ⟨?_, hbounds, ?_, ?_, ?_⟩
  · intro m hm
    have hb := hbounds (m : ℚ) (by positivity) (by exact_mod_cast hm)
    have h1 := hb.1
    have h2 := hb.2
    unfold current_slot_index_7
    omega
  · intro x s
    rw [slot_of, Int.floor_eq_iff, le_div_iff₀ hL, div_lt_iff₀ hL]
  · intro s
    ring
  · intro pool minute hne
    refine ⟨rfl, ?_⟩
    have hlen : 0 < pool.length := List.length_pos.mpr hne
    have hlt : current_slot_index_7 minute % pool.length < pool.length :=
      Nat.mod_lt _ hlen
    rw [select_source, List.getD_eq_getElem?_getD,
      List.getElem?_eq_getElem hlt]
    exact List.getElem_mem hlt

/-- Witness for C7 at concrete inputs: the last minute of the day maps to a
slot below 7, and at minute 720 the two-element pool yields one of its own
elements via slot mod pool size. -/
theorem slot_rotation_partitions_day_witness :
    current_slot_index_7 1439 < 7 ∧
    (select_source ["a", "b"] 720 =
      ["a", "b"].getD (current_slot_index_7 720 % (["a", "b"] :
        List String).length) "" ∧
      select_source ["a", "b"] 720 ∈ (["a", "b"] : List String)) :=
  ⟨slot_rotation_partitions_day.1 1439 (by norm_num),
    slot_rotation_partitions_day.2.2.2.2 ["a", "b"] 720 (by simp)⟩

/-- C8: saving the history set or the cursor map and loading it back yields
an equal in-memory structure, and loading a missing or unparsable document
yields the empty structure (the loaders are total functions: the except
branches of the source return the empty structures instead of raising). -/
theorem state_roundtrip_and_corrupt_empty :
    (∀ s : Finset String, load_history (save_history s) = s) ∧
    (∀ d : SinceMap, load_since_ids (save_since_ids d) = d) ∧
    load_history .missing = ∅ ∧
    load_history .corrupt = ∅ ∧
    load_since_ids .missing = [] ∧
    load_since_ids .corrupt = [] := by
  refine ⟨fun s => ?_, fun d => rfl, rfl, rfl, rfl, rfl⟩
  simp [load_history, save_history]

/-- No serialized history document is the empty string (the just-truncated
file state). -/
lemma json_dumps_list_ne_empty (l : List String) : json_dumps_list l ≠ "" := by
  cases l with
  | nil => decide
  | cons a as =>
    intro h
    have hlen := congrArg String.length h
    simp only [json_dumps_list, String.length_append] at hlen
    have h2 : ("[\n" : String).length = 2 := by decide
    rw [h2] at hlen
    have h0 : ("" : String).length = 0 := by decide
    rw [h0] at hlen
    omega

/-- C9 counterexample: saving the one-element history over a previously
empty history document is not atomic in the claimed sense: among the file
states a concurrent reader can observe during the write_text there is one
(the just-truncated empty file) that is neither the old nor the new complete
document. -/
theorem save_history_write_not_atomic :
    save_history ({"1"} : Finset String) =
      .valid (Finset.sort (· ≤ ·) ({"1"} : Finset String)) ∧
    ¬ atomic_overwrite (json_dumps_list [])
      (json_dumps_list (Finset.sort (· ≤ ·) ({"1"} : Finset String))) :=
  ⟨rfl, by
    intro hA
    have h0 := hA "" (List.mem_map.mpr ⟨0, by simp, rfl⟩)
    rcases h0 with h1 | h1
    · exact json_dumps_list_ne_empty [] h1.symm
    · exact json_dumps_list_ne_empty _ h1.symm⟩

/-- C9 (amended): each save does overwrite the entire persisted document,
but through a single in-place truncating write (Path.write_text), not
write-temp-then-replace: the observable intermediate states are the front
segments of the new document, among them the empty just-truncated file,
which is not a complete history document; the complete document is the final
observable state. -/
theorem save_overwrites_via_truncating_write (s : Finset String) :
    "" ∈ save_history_write_states s ∧
    json_dumps_list (Finset.sort (· ≤ ·) s) ∈ save_history_write_states s ∧
    (∀ l : List String, "" ≠ json_dumps_list l) ∧
    ∀ st ∈ save_history_write_states s,
      ∃ k, st = String.mk ((json_dumps_list (Finset.sort (· ≤ ·) s)).data.take k) := by
  refine ⟨?_, ?_, fun l h => json_dumps_list_ne_empty l h.symm, ?_⟩
  · refine List.mem_map.mpr ⟨0, ?_, rfl⟩
    simp
  · refine List.mem_map.mpr
      ⟨(json_dumps_list (Finset.sort (· ≤ ·) s)).data.length, by simp, ?_⟩
    rw [List.take_length]
  · intro st hst
    obtain ⟨k, -, hk⟩ := List.mem_map.mp hst
    exact ⟨k, hk.symm⟩

/-- Witness for the amended C9 at a concrete input: saving the history
set with the single id "1". -/
theorem save_overwrites_via_truncating_write_witness :
    "" ∈ save_history_write_states ({"1"} : Finset String) ∧
    json_dumps_list (Finset.sort (· ≤ ·) ({"1"} : Finset String)) ∈
      save_history_write_states ({"1"} : Finset String) ∧
    (∀ l : List String, "" ≠ json_dumps_list l) ∧
    ∀ st ∈ save_history_write_states ({"1"} : Finset String),
      ∃ k, st = String.mk
        ((json_dumps_list (Finset.sort (· ≤ ·)
          ({"1"} : Finset String))).data.take k) :=
  save_overwrites_via_truncating_write {"1"}

/-- The publish step ends in a publish success, a rate-limit exit, or a
double publish failure. -/
lemma publish_stage_reason_mem (h0 : Finset String) (s0 : SinceMap)
    (su tid : String) (tweets : List Candidate) (env : RunEnv) :
    (publish_stage h0 s0 su tid tweets env).reason ∈
      ([.published, .publishRateLimitExit, .publishBothFailed] :
        List StopReason) := by
  unfold publish_stage
  cases hct : (safe_api_call env.create_tweet).1 with
  | ok a => simp [commit_run]
  | exited => simp [stopRun]
  | raised =>
    cases hus : (safe_api_call env.update_status).1 with
    | ok a => simp [commit_run]
    | exited => simp [stopRun]
    | raised => simp [stopRun]

/-- The upload step ends in an upload failure, a rate-limit exit, or one of
the publish outcomes. -/
lemma upload_stage_reason_mem (h0 : Finset String) (s0 : SinceMap)
    (su tid : String) (tweets : List Candidate) (env : RunEnv) :
    (upload_stage h0 s0 su tid tweets env).reason ∈
      ([.uploadRateLimitExit, .uploadFailed, .published,
        .publishRateLimitExit, .publishBothFailed] : List StopReason) := by
  unfold upload_stage
  cases hup : (safe_api_call env.upload).1 with
  | exited => simp [stopRun]
  | raised => simp [stopRun]
  | ok a =>
    have h2 := publish_stage_reason_mem h0 s0 su tid tweets env
    simp only [List.mem_cons, List.not_mem_nil, or_false] at h2 ⊢
    tauto

/-- The cursor-advance-only branch ends in one of its three outcomes. -/
lemma refetch_stage_reason_mem (h0 : Finset String) (s0 : SinceMap)
    (su : String) (env : RunEnv) :
    (refetch_stage h0 s0 su env).reason ∈
      ([.refetchRateLimitExit, .noNewTweets, .noNewTweetsCursorAdvanced] :
        List StopReason) := by
  unfold refetch_stage
  cases h : get_recent_media_tweets env.fetch_all with
  | exited => simp [stopRun]
  | raised => simp [stopRun]
  | ok l => by_cases hl : l.isEmpty <;> simp [hl, stopRun]

/-- For a chosen candidate with a non-empty media list whose items all have
truthy urls, the chosen stage never takes the missing-url branch and never
crashes on media_list[0]. -/
lemma chosen_stage_reason_ok (h0 : Finset String) (s0 : SinceMap)
    (su : String) (chosen : Candidate) (tweets : List Candidate)
    (env : RunEnv) (hne : chosen.2 ≠ [])
    (hurl : ∀ m ∈ chosen.2, truthyStr m.url = true) :
    (chosen_stage h0 s0 su chosen tweets env).reason ≠ .missingMediaUrl ∧
    (chosen_stage h0 s0 su chosen tweets env).reason ≠ .crashed := by
  unfold chosen_stage
  cases hm : chosen.2 with
  | nil => exact absurd hm hne
  | cons mo rest =>
    have hmo : truthyStr mo.url = true :=
      hurl mo (by rw [hm]; exact List.mem_cons_self mo rest)
    by_cases hdl : env.download_ok
    · simp only [hmo, Bool.not_true, Bool.false_eq_true, if_false, hdl,
        Bool.not_false, if_true]
      have h2 := upload_stage_reason_mem h0 s0 su (toString chosen.1.id)
        tweets env
      simp only [List.mem_cons, List.not_mem_nil, or_false] at h2
      rcases h2 with h2 | h2 | h2 | h2 | h2 <;> simp [h2]
    · simp [hmo, hdl, stopRun]

/-- When every fetched candidate satisfies the media guarantee, the
filter-and-select stage never reaches the missing-url branch and never
crashes. -/
lemma candidates_stage_reason_ok (h0 : Finset String) (s0 : SinceMap)
    (su : String) (tweets : List Candidate) (env : RunEnv)
    (hspec : ∀ c ∈ tweets, c.2 ≠ [] ∧
      ∀ m ∈ c.2, m.mtype = some "photo" ∧ truthyStr m.url = true) :
    (candidates_stage h0 s0 su tweets env).reason ≠ .missingMediaUrl ∧
    (candidates_stage h0 s0 su tweets env).reason ≠ .crashed := by
  unfold candidates_stage
  by_cases hc :
      (tweets.filter (fun p => !decide (toString p.1.id ∈ h0))).isEmpty
  · simp [hc]
  · have hc2 :
        (tweets.filter (fun p => !decide (toString p.1.id ∈ h0))).isEmpty =
          false := by simpa using hc
    simp only [hc2, Bool.false_eq_true, if_false]
    have hmm := getD_mod_mem
      (tweets.filter (fun p => !decide (toString p.1.id ∈ h0)))
      env.choice (⟨0, []⟩, []) hc
    have hcin := (List.mem_filter.mp hmm).1
    exact chosen_stage_reason_ok h0 s0 su _ tweets env (hspec _ hcin).1
      (fun m hm2 => ((hspec _ hcin).2 m hm2).2)

/-- C10: every candidate the fetcher produces carries a non-empty media list
all of whose items have kind photo and a truthy (non-None, non-empty) url;
consequently the pipeline's abort branch for a chosen post whose first media
item lacks a resolvable url is unreachable, as is the would-be IndexError on
an empty media list: no run ends with the missingMediaUrl or crashed
outcome. -/
theorem fetcher_media_guarantee :
    (∀ resp : TweetsResponse, ∀ c ∈ response_media_tweets resp,
      c.2 ≠ [] ∧ ∀ mi ∈ c.2,
        mi.mtype = some "photo" ∧ truthyStr mi.url = true) ∧
    (∀ (pool : List String) (minute : ℕ) (h0 : Finset String)
      (s0 : SinceMap) (env : RunEnv),
      (pick_and_repost_from_slot pool minute h0 s0 env).reason ≠
        .missingMediaUrl ∧
      (pick_and_repost_from_slot pool minute h0 s0 env).reason ≠
        .crashed) := by
  refine ⟨fun resp => response_media_tweets_spec resp, ?_⟩
  intro pool minute h0 s0 env
  by_cases hp : pool.isEmpty
  · simp [pick_and_repost_from_slot, hp, stopRun]
  · cases hf : get_recent_media_tweets env.fetch_incr with
    | exited => simp [pick_and_repost_from_slot, hp, hf, stopRun]
    | raised =>
      exact absurd hf (get_recent_media_tweets_ne_raised env.fetch_incr)
    | ok tweets =>
      by_cases ht : tweets.isEmpty
      · have hstep : pick_and_repost_from_slot pool minute h0 s0 env =
            refetch_stage h0 s0 (select_source pool minute) env := by
          simp [pick_and_repost_from_slot, hp, hf, ht]
        rw [hstep]
        have h2 := refetch_stage_reason_mem h0 s0
          (select_source pool minute) env
        simp only [List.mem_cons, List.not_mem_nil, or_false] at h2
        rcases h2 with h2 | h2 | h2 <;> simp [h2]
      · have hstep : pick_and_repost_from_slot pool minute h0 s0 env =
            candidates_stage h0 s0 (select_source pool minute) tweets env := by
          simp [pick_and_repost_from_slot, hp, hf, ht]
        rw [hstep]
        exact candidates_stage_reason_ok h0 s0 (select_source pool minute)
          tweets env (get_recent_ok_spec hf)

/-- Witness for C10 at a concrete input: the candidate produced by the
fetcher for tweet 101 has a non-empty media list of photo items with truthy
urls. -/
theorem fetcher_media_guarantee_witness :
    (tw101, [photo1]).2 ≠ [] ∧
    ∀ mi ∈ (tw101, [photo1]).2,
      mi.mtype = some "photo" ∧ truthyStr mi.url = true :=
  fetcher_media_guarantee.1 resp101 (tw101, [photo1]) (by decide)

end RepostBot
